import Mathlib

/-!
Verification development for the mailgun-rust-sdk repository.

The repository is a typed client for the Mailgun REST API.  Its observable
behaviour factors through two external collaborators that we model
explicitly, as the spec directs (spec section 6):

* the JSON facility (`serde_json`): modelled by the `Json` value type below
  together with an executable printer (`jsonToString`, modelling
  `serde_json::to_string` on an already-serialized value) and an executable
  parser (`parseJson`, modelling `serde_json::from_str` composed with the
  per-type decoders).  JSON numbers are modelled as integers; none of the
  verified claims involve fractional values.  Only the escapes `\"` and
  `\\` are modelled in strings, and the parser accepts any other character
  verbatim; whitespace between tokens and duplicate object keys are not
  modelled (duplicate keys decode first-match).
* the HTTP transport (`ureq`): modelled by a function
  `net : Request → SdkResponse` supplied to each client method, where
  `Request` records the method, URL, basic-auth credentials and the ordered
  query parameters the client attaches, and `SdkResponse` is the status
  code plus the body text.

Everything else — parameter enums, `try_as_tuple` renderings, parameter
lists, the response record shapes and their decoders, and the client's
response classification — is translated directly from the Rust source.
-/

/-- JSON values (model of `serde_json::Value`; numbers modelled as `Int`). -/
inductive Json where
  | null
  | bool (b : Bool)
  | num (n : Int)
  | str (s : String)
  | arr (elems : List Json)
  | obj (fields : List (String × Json))

/-- The character `{` (kept as a named constant). -/
def lbrace : Char := Char.ofNat 123

/-- The character `}` (kept as a named constant). -/
def rbrace : Char := Char.ofNat 125

mutual
/-- Structural size of a JSON value, used as parser fuel. -/
def jsize : Json → Nat
  | Json.null => 1
  | Json.bool _ => 1
  | Json.num _ => 1
  | Json.str _ => 1
  | Json.arr xs => 1 + jsizeList xs
  | Json.obj fs => 1 + jsizeFields fs

def jsizeList : List Json → Nat
  | [] => 0
  | x :: xs => 1 + jsize x + jsizeList xs

def jsizeFields : List (String × Json) → Nat
  | [] => 0
  | f :: fs => 1 + jsize f.2 + jsizeFields fs
end

/-- Decimal digit to character. -/
def digitToChar : Nat → Char
  | 0 => '0'
  | 1 => '1'
  | 2 => '2'
  | 3 => '3'
  | 4 => '4'
  | 5 => '5'
  | 6 => '6'
  | 7 => '7'
  | 8 => '8'
  | _ => '9'

/-- Decimal representation of a natural number, most significant digit first. -/
def natToChars (n : Nat) : List Char :=
  if _h : n < 10 then [digitToChar n]
  else natToChars (n / 10) ++ [digitToChar (n % 10)]
decreasing_by exact Nat.div_lt_self (by omega) (by omega)

/-- Decimal representation of an integer. -/
def intChars (n : Int) : List Char :=
  if n < 0 then '-' :: natToChars n.natAbs else natToChars n.natAbs

/-- JSON string escaping for one character (model: only `"` and `\` escape). -/
def escChar (c : Char) : List Char :=
  if c = '"' then ['\\', '"']
  else if c = '\\' then ['\\', '\\']
  else [c]

/-- JSON string escaping. -/
def escChars : List Char → List Char
  | [] => []
  | c :: cs => escChar c ++ escChars cs

mutual
/-- Canonical (whitespace-free) JSON printing, modelling `serde_json::to_string`. -/
def printJson : Json → List Char
  | Json.null => ['n', 'u', 'l', 'l']
  | Json.bool true => ['t', 'r', 'u', 'e']
  | Json.bool false => ['f', 'a', 'l', 's', 'e']
  | Json.num n => intChars n
  | Json.str s => '"' :: (escChars s.data ++ ['"'])
  | Json.arr [] => ['[', ']']
  | Json.arr (x :: xs) => '[' :: (printJson x ++ printElems xs)
  | Json.obj [] => [lbrace, rbrace]
  | Json.obj (f :: fs) => lbrace :: (printField f ++ printFields fs)

def printElems : List Json → List Char
  | [] => [']']
  | x :: xs => ',' :: (printJson x ++ printElems xs)

def printField : String × Json → List Char
  | (k, v) => '"' :: (escChars k.data ++ '"' :: ':' :: printJson v)

def printFields : List (String × Json) → List Char
  | [] => [rbrace]
  | f :: fs => ',' :: (printField f ++ printFields fs)
end

/-- `serde_json::to_string` on a JSON value. -/
def jsonToString (j : Json) : String :=
  String.mk (printJson j)

/-- Parse a run of decimal digits, folding into an accumulator. -/
def parseDigits (acc : Nat) : List Char → Nat × List Char
  | [] => (acc, [])
  | c :: rest =>
    if c.isDigit then parseDigits (10 * acc + (c.toNat - 48)) rest
    else (acc, c :: rest)

/-- Parse the remainder of a JSON string literal (after the opening quote). -/
def parseStrRest : List Char → Option (List Char × List Char)
  | [] => none
  | c :: rest =>
    if c = '"' then some ([], rest)
    else if c = '\\' then
      match rest with
      | [] => none
      | e :: r =>
        if e = '"' ∨ e = '\\' then
          match parseStrRest r with
          | some (cs, r2) => some (e :: cs, r2)
          | none => none
        else none
    else
      match parseStrRest rest with
      | some (cs, r2) => some (c :: cs, r2)
      | none => none

mutual
/-- Fuel-indexed JSON value parser (model of `serde_json`'s grammar,
whitespace-free, escapes restricted as in `escChar`). -/
def parseVal : Nat → List Char → Option (Json × List Char)
  | 0, _ => none
  | _ + 1, [] => none
  | fuel + 1, c :: rest =>
    if c = 'n' then
      match rest with
      | 'u' :: 'l' :: 'l' :: r => some (Json.null, r)
      | _ => none
    else if c = 't' then
      match rest with
      | 'r' :: 'u' :: 'e' :: r => some (Json.bool true, r)
      | _ => none
    else if c = 'f' then
      match rest with
      | 'a' :: 'l' :: 's' :: 'e' :: r => some (Json.bool false, r)
      | _ => none
    else if c = '"' then
      match parseStrRest rest with
      | some (cs, r) => some (Json.str (String.mk cs), r)
      | none => none
    else if c = '-' then
      match rest with
      | [] => none
      | d :: ds =>
        if d.isDigit then
          let p := parseDigits 0 (d :: ds)
          some (Json.num (-(p.1 : Int)), p.2)
        else none
    else if c.isDigit then
      let p := parseDigits 0 (c :: rest)
      some (Json.num (p.1 : Int), p.2)
    else if c = '[' then
      match rest with
      | [] => none
      | r0 :: r =>
        if r0 = ']' then some (Json.arr [], r)
        else
          match parseElems fuel (r0 :: r) with
          | some (js, r2) => some (Json.arr js, r2)
          | none => none
    else if c = lbrace then
      match rest with
      | [] => none
      | r0 :: r =>
        if r0 = rbrace then some (Json.obj [], r)
        else
          match parseFields fuel (r0 :: r) with
          | some (fs, r2) => some (Json.obj fs, r2)
          | none => none
    else none

/-- Parse the elements of a non-empty array (after the opening bracket). -/
def parseElems : Nat → List Char → Option (List Json × List Char)
  | 0, _ => none
  | fuel + 1, input =>
    match parseVal fuel input with
    | some (j, r) =>
      match r with
      | [] => none
      | r0 :: r2 =>
        if r0 = ',' then
          match parseElems fuel r2 with
          | some (js, r3) => some (j :: js, r3)
          | none => none
        else if r0 = ']' then some ([j], r2)
        else none
    | none => none

/-- Parse the fields of a non-empty object (after the opening brace). -/
def parseFields : Nat → List Char → Option (List (String × Json) × List Char)
  | 0, _ => none
  | fuel + 1, input =>
    match input with
    | '"' :: rest =>
      match parseStrRest rest with
      | some (k, ':' :: r2) =>
        match parseVal fuel r2 with
        | some (v, r3) =>
          match r3 with
          | [] => none
          | r0 :: r4 =>
            if r0 = ',' then
              match parseFields fuel r4 with
              | some (fs, r5) => some ((String.mk k, v) :: fs, r5)
              | none => none
            else if r0 = rbrace then some ([(String.mk k, v)], r4)
            else none
        | none => none
      | _ => none
    | _ => none
end

/-- `serde_json::from_str` into a JSON value: parse and require end of input. -/
def parseJson (s : String) : Option Json :=
  match parseVal (s.data.length + 1) s.data with
  | some (j, []) => some j
  | _ => none

/-- The input does not continue with a digit (so a preceding number
literal cannot absorb it). -/
def noLeadDigit : List Char → Bool
  | [] => true
  | c :: _ => !c.isDigit

/-! ## Decoding helpers (model of `serde` derive on the response structs)

A struct field is looked up by its wire name; required fields must be
present and well-typed; `Option` fields decode missing or `null` to `none`;
unknown fields are ignored (serde's default). -/

/-- First value bound to `key` in an object's field list. -/
def getField (fields : List (String × Json)) (key : String) : Option Json :=
  match fields with
  | [] => none
  | f :: rest => if f.1 = key then some f.2 else getField rest key

/-- First value bound to any of `keys`, required to be a string
(models a `String` struct field with `serde` aliases). -/
def lookupStr (fields : List (String × Json)) (keys : List String) : Option String :=
  match fields with
  | [] => none
  | f :: rest =>
    if f.1 ∈ keys then
      match f.2 with
      | Json.str s => some s
      | _ => none
    else lookupStr rest keys

def asStr : Json → Option String
  | Json.str s => some s
  | _ => none

def asInt : Json → Option Int
  | Json.num n => some n
  | _ => none

def asNat : Json → Option Nat
  | Json.num n => if 0 ≤ n then some n.toNat else none
  | _ => none

def asBool : Json → Option Bool
  | Json.bool b => some b
  | _ => none

def asList (dec : Json → Option α) : Json → Option (List α)
  | Json.arr xs => xs.mapM dec
  | _ => none

/-- Required struct field. -/
def reqF (fields : List (String × Json)) (key : String) (dec : Json → Option α) :
    Option α :=
  (getField fields key).bind dec

/-- Optional struct field (`Option<...>` in the source). -/
def optF (fields : List (String × Json)) (key : String) (dec : Json → Option α) :
    Option (Option α) :=
  match getField fields key with
  | none => some none
  | some Json.null => some none
  | some v => (dec v).map some

/-! ## Response data model (src/src/endpoints/*.rs, src/src/client.rs) -/

/-- `ErrorResponse` (src/src/client.rs): untagged union of
`WithError { error (alias "Error") : String }` and
`WithMessage { message : String }`. -/
inductive ErrorResponse where
  | withError (error : String)
  | withMessage (message : String)
deriving DecidableEq

/-- Untagged decode of `ErrorResponse`: try `WithError` (field `error`,
exact alias `Error`) first, then `WithMessage` (field `message`). -/
def decodeErrorResponse (j : Json) : Option ErrorResponse :=
  match j with
  | Json.obj fields =>
    match lookupStr fields ["error", "Error"] with
    | some s => some (ErrorResponse.withError s)
    | none =>
      match lookupStr fields ["message"] with
      | some s => some (ErrorResponse.withMessage s)
      | none => none
  | _ => none

/-- `serde_json::from_str::<ErrorResponse>`. -/
def from_str_error (s : String) : Option ErrorResponse :=
  (parseJson s).bind decodeErrorResponse

/-- `Paging` (src/src/endpoints/mod.rs). -/
structure Paging where
  first : Option String
  next : String
  previous : String
  last : Option String
deriving DecidableEq

def decodePaging (j : Json) : Option Paging :=
  match j with
  | Json.obj f => do
    let first ← optF f "first" asStr
    let next ← reqF f "next" asStr
    let previous ← reqF f "previous" asStr
    let last ← optF f "last" asStr
    pure { first := first, next := next, previous := previous, last := last }
  | _ => none

/-- `BounceItem` (src/src/endpoints/get_bounces.rs). -/
structure BounceItem where
  address : String
  code : String
  error : String
  created_at : String
deriving DecidableEq

def decodeBounceItem (j : Json) : Option BounceItem :=
  match j with
  | Json.obj f => do
    let address ← reqF f "address" asStr
    let code ← reqF f "code" asStr
    let error ← reqF f "error" asStr
    let created_at ← reqF f "created_at" asStr
    pure { address := address, code := code, error := error, created_at := created_at }
  | _ => none

/-- `GetBouncesResponse` (src/src/endpoints/get_bounces.rs). -/
structure GetBouncesResponse where
  items : List BounceItem
  paging : Paging
deriving DecidableEq

def decodeGetBouncesResponse (j : Json) : Option GetBouncesResponse :=
  match j with
  | Json.obj f => do
    let items ← reqF f "items" (asList decodeBounceItem)
    let paging ← reqF f "paging" decodePaging
    pure { items := items, paging := paging }
  | _ => none

/-- `ComplaintItem` (src/src/endpoints/get_complaints.rs). -/
structure ComplaintItem where
  address : String
  tag : String
  created_at : String
deriving DecidableEq

def decodeComplaintItem (j : Json) : Option ComplaintItem :=
  match j with
  | Json.obj f => do
    let address ← reqF f "address" asStr
    let tag ← reqF f "tag" asStr
    let created_at ← reqF f "created_at" asStr
    pure { address := address, tag := tag, created_at := created_at }
  | _ => none

/-- `GetComplaintsResponse` (src/src/endpoints/get_complaints.rs). -/
structure GetComplaintsResponse where
  items : List ComplaintItem
  paging : Paging
deriving DecidableEq

def decodeGetComplaintsResponse (j : Json) : Option GetComplaintsResponse :=
  match j with
  | Json.obj f => do
    let items ← reqF f "items" (asList decodeComplaintItem)
    let paging ← reqF f "paging" decodePaging
    pure { items := items, paging := paging }
  | _ => none

/-- `UnsubscribeItem` (src/src/endpoints/get_unsubscribes.rs). -/
structure UnsubscribeItem where
  address : String
  tag : String
  created_at : String
deriving DecidableEq

def decodeUnsubscribeItem (j : Json) : Option UnsubscribeItem :=
  match j with
  | Json.obj f => do
    let address ← reqF f "address" asStr
    let tag ← reqF f "tag" asStr
    let created_at ← reqF f "created_at" asStr
    pure { address := address, tag := tag, created_at := created_at }
  | _ => none

/-- `GetUnsubscribesResponse` (src/src/endpoints/get_unsubscribes.rs). -/
structure GetUnsubscribesResponse where
  items : List UnsubscribeItem
  paging : Paging
deriving DecidableEq

def decodeGetUnsubscribesResponse (j : Json) : Option GetUnsubscribesResponse :=
  match j with
  | Json.obj f => do
    let items ← reqF f "items" (asList decodeUnsubscribeItem)
    let paging ← reqF f "paging" decodePaging
    pure { items := items, paging := paging }
  | _ => none

/-- `WhitelistItem` (src/src/endpoints/get_whitelists.rs); wire names are
camelCase (`createdAt`) via `serde(rename_all = "camelCase")`. -/
structure WhitelistItem where
  value : String
  reason : String
  type : String
  created_at : String
deriving DecidableEq

def decodeWhitelistItem (j : Json) : Option WhitelistItem :=
  match j with
  | Json.obj f => do
    let value ← reqF f "value" asStr
    let reason ← reqF f "reason" asStr
    let type_ ← reqF f "type" asStr
    let created_at ← reqF f "createdAt" asStr
    pure { value := value, reason := reason, type := type_, created_at := created_at }
  | _ => none

/-- `GetWhitelistsResponse` (src/src/endpoints/get_whitelists.rs). -/
structure GetWhitelistsResponse where
  items : List WhitelistItem
  paging : Paging
deriving DecidableEq

def decodeGetWhitelistsResponse (j : Json) : Option GetWhitelistsResponse :=
  match j with
  | Json.obj f => do
    let items ← reqF f "items" (asList decodeWhitelistItem)
    let paging ← reqF f "paging" decodePaging
    pure { items := items, paging := paging }
  | _ => none

/-- `StatAccepted` (src/src/endpoints/get_stats.rs). -/
structure StatAccepted where
  outgoing : Int
  incoming : Int
  total : Int
deriving DecidableEq

def decodeStatAccepted (j : Json) : Option StatAccepted :=
  match j with
  | Json.obj f => do
    let outgoing ← reqF f "outgoing" asInt
    let incoming ← reqF f "incoming" asInt
    let total ← reqF f "total" asInt
    pure { outgoing := outgoing, incoming := incoming, total := total }
  | _ => none

/-- `StatDelivered` (src/src/endpoints/get_stats.rs). -/
structure StatDelivered where
  smtp : Int
  http : Int
  total : Int
deriving DecidableEq

def decodeStatDelivered (j : Json) : Option StatDelivered :=
  match j with
  | Json.obj f => do
    let smtp ← reqF f "smtp" asInt
    let http ← reqF f "http" asInt
    let total ← reqF f "total" asInt
    pure { smtp := smtp, http := http, total := total }
  | _ => none

/-- `StatFailedPermanent` (src/src/endpoints/get_stats.rs); wire names are
kebab-case via `serde(rename_all = "kebab-case")`. -/
structure StatFailedPermanent where
  bounce : Int
  delayed_bounce : Int
  suppress_bounce : Int
  suppress_unsubscribe : Int
  suppress_complaint : Int
  total : Int
deriving DecidableEq

def decodeStatFailedPermanent (j : Json) : Option StatFailedPermanent :=
  match j with
  | Json.obj f => do
    let bounce ← reqF f "bounce" asInt
    let delayed_bounce ← reqF f "delayed-bounce" asInt
    let suppress_bounce ← reqF f "suppress-bounce" asInt
    let suppress_unsubscribe ← reqF f "suppress-unsubscribe" asInt
    let suppress_complaint ← reqF f "suppress-complaint" asInt
    let total ← reqF f "total" asInt
    pure { bounce := bounce, delayed_bounce := delayed_bounce,
           suppress_bounce := suppress_bounce,
           suppress_unsubscribe := suppress_unsubscribe,
           suppress_complaint := suppress_complaint, total := total }
  | _ => none

/-- `StatFailedTemporary` (src/src/endpoints/get_stats.rs). -/
structure StatFailedTemporary where
  espblock : Int
deriving DecidableEq

def decodeStatFailedTemporary (j : Json) : Option StatFailedTemporary :=
  match j with
  | Json.obj f => do
    let espblock ← reqF f "espblock" asInt
    pure { espblock := espblock }
  | _ => none

/-- `StatFailed` (src/src/endpoints/get_stats.rs). -/
structure StatFailed where
  permanent : StatFailedPermanent
  temporary : StatFailedTemporary
deriving DecidableEq

def decodeStatFailed (j : Json) : Option StatFailed :=
  match j with
  | Json.obj f => do
    let permanent ← reqF f "permanent" decodeStatFailedPermanent
    let temporary ← reqF f "temporary" decodeStatFailedTemporary
    pure { permanent := permanent, temporary := temporary }
  | _ => none

/-- `StatItem` (src/src/endpoints/get_stats.rs). -/
structure StatItem where
  time : String
  accepted : StatAccepted
  delivered : StatDelivered
  failed : StatFailed
deriving DecidableEq

def decodeStatItem (j : Json) : Option StatItem :=
  match j with
  | Json.obj f => do
    let time ← reqF f "time" asStr
    let accepted ← reqF f "accepted" decodeStatAccepted
    let delivered ← reqF f "delivered" decodeStatDelivered
    let failed ← reqF f "failed" decodeStatFailed
    pure { time := time, accepted := accepted, delivered := delivered, failed := failed }
  | _ => none

/-- `GetStatsResponse` (src/src/endpoints/get_stats.rs); the Rust field
`end` is spelled `end_` here (`end` is reserved in Lean). -/
structure GetStatsResponse where
  end_ : String
  resolution : String
  start : String
  stats : List StatItem
deriving DecidableEq

def decodeGetStatsResponse (j : Json) : Option GetStatsResponse :=
  match j with
  | Json.obj f => do
    let end_ ← reqF f "end" asStr
    let resolution ← reqF f "resolution" asStr
    let start ← reqF f "start" asStr
    let stats ← reqF f "stats" (asList decodeStatItem)
    pure { end_ := end_, resolution := resolution, start := start, stats := stats }
  | _ => none

/-- `SendMessageResponse` (src/src/endpoints/send_message.rs). -/
structure SendMessageResponse where
  id : String
  message : String
deriving DecidableEq

def decodeSendMessageResponse (j : Json) : Option SendMessageResponse :=
  match j with
  | Json.obj f => do
    let id ← reqF f "id" asStr
    let message ← reqF f "message" asStr
    pure { id := id, message := message }
  | _ => none

/-- `EventEnvelope` (src/src/endpoints/get_events.rs). -/
structure EventEnvelope where
  targets : String
  transport : String
  sender : String
deriving DecidableEq

def decodeEventEnvelope (j : Json) : Option EventEnvelope :=
  match j with
  | Json.obj f => do
    let targets ← reqF f "targets" asStr
    let transport ← reqF f "transport" asStr
    let sender ← reqF f "sender" asStr
    pure { targets := targets, transport := transport, sender := sender }
  | _ => none

/-- `EventFlags` (src/src/endpoints/get_events.rs); kebab-case wire names. -/
structure EventFlags where
  is_authenticated : Option Bool
  is_delayed_bounce : Option Bool
  is_routed : Option Bool
  is_system_test : Option Bool
  is_test_mode : Option Bool
deriving DecidableEq

def decodeEventFlags (j : Json) : Option EventFlags :=
  match j with
  | Json.obj f => do
    let a ← optF f "is-authenticated" asBool
    let b ← optF f "is-delayed-bounce" asBool
    let c ← optF f "is-routed" asBool
    let d ← optF f "is-system-test" asBool
    let e ← optF f "is-test-mode" asBool
    pure { is_authenticated := a, is_delayed_bounce := b, is_routed := c,
           is_system_test := d, is_test_mode := e }
  | _ => none

/-- `EventReject` (src/src/endpoints/get_events.rs). -/
structure EventReject where
  reason : Option String
  description : Option String
deriving DecidableEq

def decodeEventReject (j : Json) : Option EventReject :=
  match j with
  | Json.obj f => do
    let reason ← optF f "reason" asStr
    let description ← optF f "description" asStr
    pure { reason := reason, description := description }
  | _ => none

/-- `EventDeliveryStatus` (src/src/endpoints/get_events.rs); kebab-case wire
names; the `f64` field `session_seconds` is modelled as `Int`. -/
structure EventDeliveryStatus where
  tls : Option Bool
  mx_host : Option String
  code : Option Int
  description : Option String
  session_seconds : Option Int
  utf8 : Option Bool
  attempt_no : Option Nat
  message : Option String
  certificate_verified : Option Bool
deriving DecidableEq

def decodeEventDeliveryStatus (j : Json) : Option EventDeliveryStatus :=
  match j with
  | Json.obj f => do
    let tls ← optF f "tls" asBool
    let mx_host ← optF f "mx-host" asStr
    let code ← optF f "code" asInt
    let description ← optF f "description" asStr
    let session_seconds ← optF f "session-seconds" asInt
    let utf8 ← optF f "utf8" asBool
    let attempt_no ← optF f "attempt-no" asNat
    let message ← optF f "message" asStr
    let certificate_verified ← optF f "certificate-verified" asBool
    pure { tls := tls, mx_host := mx_host, code := code, description := description,
           session_seconds := session_seconds, utf8 := utf8, attempt_no := attempt_no,
           message := message, certificate_verified := certificate_verified }
  | _ => none

/-- `EventMessageHeader` (src/src/endpoints/get_events.rs); kebab-case wire
names; the Rust fields `from` and `to` are spelled `from_` and `to_`
(both are reserved tokens in Lean). -/
structure EventMessageHeader where
  to_ : Option String
  message_id : Option String
  from_ : Option String
  subject : Option String
deriving DecidableEq

def decodeEventMessageHeader (j : Json) : Option EventMessageHeader :=
  match j with
  | Json.obj f => do
    let to_ ← optF f "to" asStr
    let message_id ← optF f "message-id" asStr
    let from_ ← optF f "from" asStr
    let subject ← optF f "subject" asStr
    pure { to_ := to_, message_id := message_id, from_ := from_, subject := subject }
  | _ => none

/-- `EventMessageAttachment` (src/src/endpoints/get_events.rs). -/
structure EventMessageAttachment where
  size : Option Int
  content_type : Option String
  filename : Option String
deriving DecidableEq

def decodeEventMessageAttachment (j : Json) : Option EventMessageAttachment :=
  match j with
  | Json.obj f => do
    let size ← optF f "size" asInt
    let content_type ← optF f "content-type" asStr
    let filename ← optF f "filename" asStr
    pure { size := size, content_type := content_type, filename := filename }
  | _ => none

/-- `EventMessage` (src/src/endpoints/get_events.rs). -/
structure EventMessage where
  headers : Option EventMessageHeader
  attachments : Option (List EventMessageAttachment)
  recipients : Option (List String)
  size : Option Int
deriving DecidableEq

def decodeEventMessage (j : Json) : Option EventMessage :=
  match j with
  | Json.obj f => do
    let headers ← optF f "headers" decodeEventMessageHeader
    let attachments ← optF f "attachments" (asList decodeEventMessageAttachment)
    let recipients ← optF f "recipients" (asList asStr)
    let size ← optF f "size" asInt
    pure { headers := headers, attachments := attachments,
           recipients := recipients, size := size }
  | _ => none

/-- `EventStorage` (src/src/endpoints/get_events.rs). -/
structure EventStorage where
  url : String
  key : String
deriving DecidableEq

def decodeEventStorage (j : Json) : Option EventStorage :=
  match j with
  | Json.obj f => do
    let url ← reqF f "url" asStr
    let key ← reqF f "key" asStr
    pure { url := url, key := key }
  | _ => none

/-- `EventGeolocation` (src/src/endpoints/get_events.rs). -/
structure EventGeolocation where
  country : String
  region : String
  city : String
deriving DecidableEq

def decodeEventGeolocation (j : Json) : Option EventGeolocation :=
  match j with
  | Json.obj f => do
    let country ← reqF f "country" asStr
    let region ← reqF f "region" asStr
    let city ← reqF f "city" asStr
    pure { country := country, region := region, city := city }
  | _ => none

/-- `EventClientInfo` (src/src/endpoints/get_events.rs); kebab-case wire names. -/
structure EventClientInfo where
  client_type : Option String
  client_os : Option String
  device_type : Option String
  client_name : Option String
  user_agent : Option String
deriving DecidableEq

def decodeEventClientInfo (j : Json) : Option EventClientInfo :=
  match j with
  | Json.obj f => do
    let client_type ← optF f "client-type" asStr
    let client_os ← optF f "client-os" asStr
    let device_type ← optF f "device-type" asStr
    let client_name ← optF f "client-name" asStr
    let user_agent ← optF f "user-agent" asStr
    pure { client_type := client_type, client_os := client_os,
           device_type := device_type, client_name := client_name,
           user_agent := user_agent }
  | _ => none

/-- `EventItem` (src/src/endpoints/get_events.rs); kebab-case wire names;
the `f64` field `timestamp` is modelled as `Int`. -/
structure EventItem where
  event : String
  id : String
  timestamp : Int
  log_level : Option String
  method : Option String
  severity : Option String
  envelope : Option EventEnvelope
  flags : Option EventFlags
  reject : Option EventReject
  delivery_status : Option EventDeliveryStatus
  message : EventMessage
  storage : Option EventStorage
  recipient : String
  recipient_domain : Option String
  geolocation : Option EventGeolocation
  tags : Option (List String)
  ip : Option String
  client_info : Option EventClientInfo
deriving DecidableEq

/-- First half of the `EventItem` fields (split only to keep compilation
tractable; the decoded fields and wire names are exactly those of the
source struct, in source order). -/
def decodeEventItemHead (f : List (String × Json)) :
    Option (String × String × Int × Option String × Option String × Option String ×
      Option EventEnvelope × Option EventFlags × Option EventReject) := do
  let event ← reqF f "event" asStr
  let id ← reqF f "id" asStr
  let timestamp ← reqF f "timestamp" asInt
  let log_level ← optF f "log-level" asStr
  let method ← optF f "method" asStr
  let severity ← optF f "severity" asStr
  let envelope ← optF f "envelope" decodeEventEnvelope
  let flags ← optF f "flags" decodeEventFlags
  let reject ← optF f "reject" decodeEventReject
  pure (event, id, timestamp, log_level, method, severity, envelope, flags, reject)

/-- Second half of the `EventItem` fields. -/
def decodeEventItemTail (f : List (String × Json)) :
    Option (Option EventDeliveryStatus × EventMessage × Option EventStorage ×
      String × Option String × Option EventGeolocation × Option (List String) ×
      Option String × Option EventClientInfo) := do
  let delivery_status ← optF f "delivery-status" decodeEventDeliveryStatus
  let message ← reqF f "message" decodeEventMessage
  let storage ← optF f "storage" decodeEventStorage
  let recipient ← reqF f "recipient" asStr
  let recipient_domain ← optF f "recipient-domain" asStr
  let geolocation ← optF f "geolocation" decodeEventGeolocation
  let tags ← optF f "tags" (asList asStr)
  let ip ← optF f "ip" asStr
  let client_info ← optF f "client-info" decodeEventClientInfo
  pure (delivery_status, message, storage, recipient, recipient_domain,
        geolocation, tags, ip, client_info)

def decodeEventItem (j : Json) : Option EventItem :=
  match j with
  | Json.obj f => do
    let (event, id, timestamp, log_level, method, severity, envelope, flags,
         reject) ← decodeEventItemHead f
    let (delivery_status, message, storage, recipient, recipient_domain,
         geolocation, tags, ip, client_info) ← decodeEventItemTail f
    pure { event := event, id := id, timestamp := timestamp, log_level := log_level,
           method := method, severity := severity, envelope := envelope,
           flags := flags, reject := reject, delivery_status := delivery_status,
           message := message, storage := storage, recipient := recipient,
           recipient_domain := recipient_domain, geolocation := geolocation,
           tags := tags, ip := ip, client_info := client_info }
  | _ => none

/-- `GetEventsResponse` (src/src/endpoints/get_events.rs). -/
structure GetEventsResponse where
  items : List EventItem
  paging : Paging
deriving DecidableEq

def decodeGetEventsResponse (j : Json) : Option GetEventsResponse :=
  match j with
  | Json.obj f => do
    let items ← reqF f "items" (asList decodeEventItem)
    let paging ← reqF f "paging" decodePaging
    pure { items := items, paging := paging }
  | _ => none

/-! ## Parameter model (src/src/param.rs, src/src/endpoints/*.rs) -/

/-- `ParamError` (src/src/param.rs): `InvalidJson(param, cause)`; the
`serde_json::error::Error` cause is modelled by its message string. -/
inductive ParamError where
  | invalidJson (param : String) (cause : String)
deriving DecidableEq

/-- Rust's `ToString` for `bool`. -/
def boolToString : Bool → String
  | true => "true"
  | false => "false"

/-- `GetBouncesParam` (src/src/endpoints/get_bounces.rs). -/
inductive GetBouncesParam where
  | Limit (v : Nat)
deriving DecidableEq

def GetBouncesParam.try_as_tuple : GetBouncesParam → Except ParamError (String × String)
  | .Limit v => .ok ("limit", toString v)

/-- `Param::as_tuple` (src/src/param.rs): `try_as_tuple().unwrap()`.  The
`.error` branch stands for the Rust panic; it is proved unreachable. -/
def GetBouncesParam.as_tuple (p : GetBouncesParam) : String × String :=
  match p.try_as_tuple with
  | .ok kv => kv
  | .error _ => ("", "")

/-- `GetBouncesParamList` (src/src/endpoints/get_bounces.rs). -/
structure GetBouncesParamList where
  values : List GetBouncesParam
deriving DecidableEq

def GetBouncesParamList.default : GetBouncesParamList :=
  { values := [] }

def GetBouncesParamList.add (l : GetBouncesParamList) (p : GetBouncesParam) :
    GetBouncesParamList :=
  { values := l.values ++ [p] }

/-- `GetComplaintsParam` (src/src/endpoints/get_complaints.rs). -/
inductive GetComplaintsParam where
  | Limit (v : Nat)
deriving DecidableEq

def GetComplaintsParam.try_as_tuple :
    GetComplaintsParam → Except ParamError (String × String)
  | .Limit v => .ok ("limit", toString v)

def GetComplaintsParam.as_tuple (p : GetComplaintsParam) : String × String :=
  match p.try_as_tuple with
  | .ok kv => kv
  | .error _ => ("", "")

/-- `GetComplaintsParamList` (src/src/endpoints/get_complaints.rs). -/
structure GetComplaintsParamList where
  values : List GetComplaintsParam
deriving DecidableEq

def GetComplaintsParamList.default : GetComplaintsParamList :=
  { values := [] }

def GetComplaintsParamList.add (l : GetComplaintsParamList) (p : GetComplaintsParam) :
    GetComplaintsParamList :=
  { values := l.values ++ [p] }

/-- `GetUnsubscribesParam` (src/src/endpoints/get_unsubscribes.rs). -/
inductive GetUnsubscribesParam where
  | Limit (v : Nat)
deriving DecidableEq

def GetUnsubscribesParam.try_as_tuple :
    GetUnsubscribesParam → Except ParamError (String × String)
  | .Limit v => .ok ("limit", toString v)

def GetUnsubscribesParam.as_tuple (p : GetUnsubscribesParam) : String × String :=
  match p.try_as_tuple with
  | .ok kv => kv
  | .error _ => ("", "")

/-- `GetUnsubscribesParamList` (src/src/endpoints/get_unsubscribes.rs). -/
structure GetUnsubscribesParamList where
  values : List GetUnsubscribesParam
deriving DecidableEq

def GetUnsubscribesParamList.default : GetUnsubscribesParamList :=
  { values := [] }

def GetUnsubscribesParamList.add (l : GetUnsubscribesParamList)
    (p : GetUnsubscribesParam) : GetUnsubscribesParamList :=
  { values := l.values ++ [p] }

/-- `GetWhitelistsParam` (src/src/endpoints/get_whitelists.rs). -/
inductive GetWhitelistsParam where
  | Limit (v : Nat)
deriving DecidableEq

def GetWhitelistsParam.try_as_tuple :
    GetWhitelistsParam → Except ParamError (String × String)
  | .Limit v => .ok ("limit", toString v)

def GetWhitelistsParam.as_tuple (p : GetWhitelistsParam) : String × String :=
  match p.try_as_tuple with
  | .ok kv => kv
  | .error _ => ("", "")

/-- `GetWhitelistsParamList` (src/src/endpoints/get_whitelists.rs). -/
structure GetWhitelistsParamList where
  values : List GetWhitelistsParam
deriving DecidableEq

def GetWhitelistsParamList.default : GetWhitelistsParamList :=
  { values := [] }

def GetWhitelistsParamList.add (l : GetWhitelistsParamList) (p : GetWhitelistsParam) :
    GetWhitelistsParamList :=
  { values := l.values ++ [p] }

/-- `GetStatsParam` (src/src/endpoints/get_stats.rs). -/
inductive GetStatsParam where
  | Duration (v : String)
  | End (v : String)
  | Event (v : String)
  | Resolution (v : String)
  | Start (v : String)
deriving DecidableEq

def GetStatsParam.try_as_tuple : GetStatsParam → Except ParamError (String × String)
  | .Duration v => .ok ("duration", v)
  | .End v => .ok ("end", v)
  | .Event v => .ok ("event", v)
  | .Resolution v => .ok ("resolution", v)
  | .Start v => .ok ("start", v)

def GetStatsParam.as_tuple (p : GetStatsParam) : String × String :=
  match p.try_as_tuple with
  | .ok kv => kv
  | .error _ => ("", "")

/-- `GetStatsParamList` (src/src/endpoints/get_stats.rs); the default
requests the three event categories. -/
structure GetStatsParamList where
  values : List GetStatsParam
deriving DecidableEq

def GetStatsParamList.default : GetStatsParamList :=
  { values := [GetStatsParam.Event "accepted", GetStatsParam.Event "delivered",
               GetStatsParam.Event "failed"] }

def GetStatsParamList.add (l : GetStatsParamList) (p : GetStatsParam) :
    GetStatsParamList :=
  { values := l.values ++ [p] }

/-- `GetEventsParam` (src/src/endpoints/get_events.rs). -/
inductive GetEventsParam where
  | Pretty (v : Bool)
  | Begin (v : String)
  | End (v : String)
  | Ascending (v : Bool)
  | Limit (v : Nat)
  | Event (v : String)
  | List (v : String)
  | Attachment (v : String)
  | From (v : String)
  | MessageId (v : String)
  | Subject (v : String)
  | To (v : String)
  | Size (v : String)
  | Recipient (v : String)
  | Recipients (v : String)
  | Tags (v : String)
  | Severity (v : String)
deriving DecidableEq

def GetEventsParam.try_as_tuple : GetEventsParam → Except ParamError (String × String)
  | .Pretty v => .ok ("pretty", boolToString v)
  | .Begin v => .ok ("begin", v)
  | .End v => .ok ("end", v)
  | .Ascending v => .ok ("ascending", if v then "yes" else "no")
  | .Limit v => .ok ("limit", toString v)
  | .Event v => .ok ("event", v)
  | .List v => .ok ("list", v)
  | .Attachment v => .ok ("attachment", v)
  | .From v => .ok ("from", v)
  | .MessageId v => .ok ("message_id", v)
  | .Subject v => .ok ("subject", v)
  | .To v => .ok ("to", v)
  | .Size v => .ok ("size", v)
  | .Recipient v => .ok ("recipient", v)
  | .Recipients v => .ok ("recipients", v)
  | .Tags v => .ok ("tags", v)
  | .Severity v => .ok ("severity", v)

def GetEventsParam.as_tuple (p : GetEventsParam) : String × String :=
  match p.try_as_tuple with
  | .ok kv => kv
  | .error _ => ("", "")

/-- `GetEventsParamList` (src/src/endpoints/get_events.rs); the default
disables pretty printing. -/
structure GetEventsParamList where
  values : List GetEventsParam
deriving DecidableEq

def GetEventsParamList.default : GetEventsParamList :=
  { values := [GetEventsParam.Pretty false] }

def GetEventsParamList.add (l : GetEventsParamList) (p : GetEventsParam) :
    GetEventsParamList :=
  { values := l.values ++ [p] }

/-- A `serde::Serialize` value as passed to
`SendMessageParam::RecipientVariables`: modelled by the outcome of
`serde_json::to_string` on it — either an encode-error message or the
JSON value it serializes to. -/
def SerValue : Type := Except String Json

/-- `SendMessageParam` (src/src/endpoints/send_message.rs).  The string
payloads are owned strings here (the Rust borrows are irrelevant to
behaviour); the generic `T : Serialize` payload of `RecipientVariables`
is modelled by `SerValue`. -/
inductive SendMessageParam where
  | From (v : String)
  | To (v : String)
  | Cc (v : String)
  | Bcc (v : String)
  | Subject (v : String)
  | Text (v : String)
  | Html (v : String)
  | AmpHtml (v : String)
  | Attachment (v : String)
  | Inline (v : String)
  | Template (v : String)
  | TVersion (v : String)
  | TText (v : String)
  | OTag (v : String)
  | ODkim (v : Bool)
  | ODeliveryTime (v : String)
  | ODeliveryTimeOptimizePeriod (v : String)
  | OTimeZoneLocalize (v : String)
  | OTestMode (v : Bool)
  | OTracking (v : Bool)
  | OTrackingClicks (v : String)
  | OTrackingOpens (v : Bool)
  | ORequireTls (v : Bool)
  | OSkipVerification (v : Bool)
  | CustomHeader (key : String) (value : String)
  | CustomVariable (key : String) (value : String)
  | RecipientVariables (v : SerValue)

def SendMessageParam.try_as_tuple :
    SendMessageParam → Except ParamError (String × String)
  | .From v => .ok ("from", v)
  | .To v => .ok ("to", v)
  | .Cc v => .ok ("cc", v)
  | .Bcc v => .ok ("bcc", v)
  | .Subject v => .ok ("subject", v)
  | .Text v => .ok ("text", v)
  | .Html v => .ok ("html", v)
  | .AmpHtml v => .ok ("amp-html", v)
  | .Attachment v => .ok ("attachment", v)
  | .Inline v => .ok ("inline", v)
  | .Template v => .ok ("template", v)
  | .TVersion v => .ok ("t:version", v)
  | .TText v => .ok ("t:text", v)
  | .OTag v => .ok ("o:tag", v)
  | .ODkim v => .ok ("o:dkim", if v then "yes" else "no")
  | .ODeliveryTime v => .ok ("o:delivery-time", v)
  | .ODeliveryTimeOptimizePeriod v => .ok ("o:delivery-time-optimize-period", v)
  | .OTimeZoneLocalize v => .ok ("o:time-zone-localize", v)
  | .OTestMode v => .ok ("o:testmode", if v then "yes" else "no")
  | .OTracking v => .ok ("o:tracking", boolToString v)
  | .OTrackingClicks v => .ok ("o:tracking-clicks", v)
  | .OTrackingOpens v => .ok ("o:tracking-open", if v then "yes" else "no")
  | .ORequireTls v => .ok ("o:require-tls", if v then "yes" else "no")
  | .OSkipVerification v => .ok ("o:skip-verification", if v then "yes" else "no")
  | .CustomHeader key value => .ok ("h:" ++ key, value)
  | .CustomVariable key value => .ok ("v:" ++ key, value)
  | .RecipientVariables v =>
    match v with
    | .error e => .error (.invalidJson "recipient-variables" e)
    | .ok j => .ok ("recipient-variables", jsonToString j)

def SendMessageParam.as_tuple (p : SendMessageParam) : String × String :=
  match p.try_as_tuple with
  | .ok kv => kv
  | .error _ => ("", "")

/-- Does this parameter use the structured-JSON (`RecipientVariables`) variant? -/
def SendMessageParam.isRecipientVariables : SendMessageParam → Bool
  | .RecipientVariables _ => true
  | _ => false

/-- `SendMessageParamList` (src/src/endpoints/send_message.rs). -/
structure SendMessageParamList where
  values : List SendMessageParam

def SendMessageParamList.default : SendMessageParamList :=
  { values := [] }

def SendMessageParamList.add (l : SendMessageParamList) (p : SendMessageParam) :
    SendMessageParamList :=
  { values := l.values ++ [p] }

/-! ## Client (src/src/client.rs, src/src/lib.rs) -/

/-- Base URL for the MailGun API (src/src/lib.rs). -/
def MAILGUN_API_BASE : String := "https://api.mailgun.net/v3"

/-- HTTP method of an issued request. -/
inductive Method where
  | GET
  | POST
deriving DecidableEq

/-- The observable content of one HTTP request the client issues: method,
URL, basic-auth credentials (`.auth(user, password)`), and the query
parameters in the order `request.query` was called. -/
structure Request where
  method : Method
  url : String
  user : String
  password : String
  query : List (String × String)

/-- What the transport hands back: status code and body text (a body-read
failure, `ClientError::ReadResponse`, aborts before classification and is
not modelled further). -/
structure SdkResponse where
  status : Nat
  body : String

/-- `Client` (src/src/client.rs). -/
structure Client where
  api_key : String
  domain : String

/-- `ClientError` (src/src/client.rs).  `ParseResponse` carries the
`serde_json` decode error; the model records the offending body text. -/
inductive ClientError where
  | apiError (e : ErrorResponse)
  | httpError (status : Nat) (body : String)
  | paramError (e : ParamError)
  | parseResponse (body : String)
deriving DecidableEq

/-- Decode a body as a declared response shape
(`serde_json::from_str::<T>(&raw).map_err(ClientError::ParseResponse)`). -/
def decodeDeclared (dec : Json → Option α) (body : String) : Except ClientError α :=
  match (parseJson body).bind dec with
  | some v => .ok v
  | none => .error (.parseResponse body)

/-- Response classification shared verbatim by all seven typed endpoint
methods (src/src/client.rs lines 67-83 and their six copies): on non-200,
try the error envelope, else fail with `HttpError(status, raw)`; on 200,
decode the declared shape. -/
def classifyTyped (dec : Json → Option α) (r : SdkResponse) : Except ClientError α :=
  if r.status ≠ 200 then
    match from_str_error r.body with
    | some e => .error (.apiError e)
    | none => .error (.httpError r.status r.body)
  else
    decodeDeclared dec r.body

/-- Response classification of the generic pagination method
`Client::call` (src/src/client.rs lines 34-52): on non-200, try the error
envelope; in every remaining case fall through to the declared-shape
decode (there is no `HttpError` fallback in the source). -/
def callClassify (dec : Json → Option α) (r : SdkResponse) : Except ClientError α :=
  if r.status ≠ 200 then
    match from_str_error r.body with
    | some e => .error (.apiError e)
    | none => decodeDeclared dec r.body
  else
    decodeDeclared dec r.body

/-- `Client::call` (src/src/client.rs): GET the given URL with only basic
auth attached, then classify via `callClassify`. -/
def Client.call (dec : Json → Option α) (c : Client) (url : String)
    (net : Request → SdkResponse) : Except ClientError α :=
  callClassify dec
    (net { method := .GET, url := url, user := "api", password := c.api_key,
           query := [] })

def Client.get_bounces_request (c : Client) (params : GetBouncesParamList) : Request :=
  { method := .GET, url := MAILGUN_API_BASE ++ "/" ++ c.domain ++ "/bounces",
    user := "api", password := c.api_key,
    query := params.values.map GetBouncesParam.as_tuple }

/-- `Client::get_bounces` (src/src/client.rs). -/
def Client.get_bounces (c : Client) (params : GetBouncesParamList)
    (net : Request → SdkResponse) : Except ClientError GetBouncesResponse :=
  classifyTyped decodeGetBouncesResponse (net (c.get_bounces_request params))

def Client.get_complaints_request (c : Client) (params : GetComplaintsParamList) :
    Request :=
  { method := .GET, url := MAILGUN_API_BASE ++ "/" ++ c.domain ++ "/complaints",
    user := "api", password := c.api_key,
    query := params.values.map GetComplaintsParam.as_tuple }

/-- `Client::get_complaints` (src/src/client.rs). -/
def Client.get_complaints (c : Client) (params : GetComplaintsParamList)
    (net : Request → SdkResponse) : Except ClientError GetComplaintsResponse :=
  classifyTyped decodeGetComplaintsResponse (net (c.get_complaints_request params))

def Client.get_events_request (c : Client) (params : GetEventsParamList) : Request :=
  { method := .GET, url := MAILGUN_API_BASE ++ "/" ++ c.domain ++ "/events",
    user := "api", password := c.api_key,
    query := params.values.map GetEventsParam.as_tuple }

/-- `Client::get_events` (src/src/client.rs). -/
def Client.get_events (c : Client) (params : GetEventsParamList)
    (net : Request → SdkResponse) : Except ClientError GetEventsResponse :=
  classifyTyped decodeGetEventsResponse (net (c.get_events_request params))

def Client.get_stats_request (c : Client) (params : GetStatsParamList) : Request :=
  { method := .GET, url := MAILGUN_API_BASE ++ "/" ++ c.domain ++ "/stats/total",
    user := "api", password := c.api_key,
    query := params.values.map GetStatsParam.as_tuple }

/-- `Client::get_stats` (src/src/client.rs). -/
def Client.get_stats (c : Client) (params : GetStatsParamList)
    (net : Request → SdkResponse) : Except ClientError GetStatsResponse :=
  classifyTyped decodeGetStatsResponse (net (c.get_stats_request params))

def Client.get_unsubscribes_request (c : Client) (params : GetUnsubscribesParamList) :
    Request :=
  { method := .GET, url := MAILGUN_API_BASE ++ "/" ++ c.domain ++ "/unsubscribes",
    user := "api", password := c.api_key,
    query := params.values.map GetUnsubscribesParam.as_tuple }

/-- `Client::get_unsubscribes` (src/src/client.rs). -/
def Client.get_unsubscribes (c : Client) (params : GetUnsubscribesParamList)
    (net : Request → SdkResponse) : Except ClientError GetUnsubscribesResponse :=
  classifyTyped decodeGetUnsubscribesResponse (net (c.get_unsubscribes_request params))

def Client.get_whitelists_request (c : Client) (params : GetWhitelistsParamList) :
    Request :=
  { method := .GET, url := MAILGUN_API_BASE ++ "/" ++ c.domain ++ "/whitelists",
    user := "api", password := c.api_key,
    query := params.values.map GetWhitelistsParam.as_tuple }

/-- `Client::get_whitelists` (src/src/client.rs). -/
def Client.get_whitelists (c : Client) (params : GetWhitelistsParamList)
    (net : Request → SdkResponse) : Except ClientError GetWhitelistsResponse :=
  classifyTyped decodeGetWhitelistsResponse (net (c.get_whitelists_request params))

/-- The `for param in params.values { let (key, value) = param.try_as_tuple()?;
request.query(&key, &value); }` loop of `Client::send_message`: renders the
parameters in order, short-circuiting at the first failure. -/
def renderSendParams : List SendMessageParam → Except ParamError (List (String × String))
  | [] => .ok []
  | p :: ps =>
    match p.try_as_tuple with
    | .error e => .error e
    | .ok kv =>
      match renderSendParams ps with
      | .error e => .error e
      | .ok kvs => .ok (kv :: kvs)

/-- `Client::send_message` (src/src/client.rs): render all parameters
(failures surface as `ClientError::ParamError` before `net` is consulted),
then POST and classify exactly as the GET endpoints do. -/
def Client.send_message (c : Client) (params : SendMessageParamList)
    (net : Request → SdkResponse) : Except ClientError SendMessageResponse :=
  match renderSendParams params.values with
  | .error e => .error (.paramError e)
  | .ok kvs =>
    classifyTyped decodeSendMessageResponse
      (net { method := .POST, url := MAILGUN_API_BASE ++ "/" ++ c.domain ++ "/messages",
             user := "api", password := c.api_key, query := kvs })

/-- The classification property every typed endpoint method provides: on
non-200 decode the error envelope (else `HttpError(status, raw)`), on 200
decode the declared shape (`Ok` on success, `ResponseParseError` on
failure — never a silent default). -/
def uniformClassification {α : Type} (dec : Json → Option α) : Prop :=
  ∀ (status : Nat) (body : String),
    (∀ e, status ≠ 200 → from_str_error body = some e →
      classifyTyped dec ⟨status, body⟩ = .error (.apiError e)) ∧
    (status ≠ 200 → from_str_error body = none →
      classifyTyped dec ⟨status, body⟩ = .error (.httpError status body)) ∧
    (status = 200 →
      ((∃ v, (parseJson body).bind dec = some v ∧
          classifyTyped dec ⟨status, body⟩ = .ok v) ∨
       ((parseJson body).bind dec = none ∧
        classifyTyped dec ⟨status, body⟩ = .error (.parseResponse body))))

/-! ## Printer/parser round-trip (the model of the spec's JSON round-trip
property, used by claim C4) -/

theorem digitToChar_isDigit (d : Nat) : (digitToChar d).isDigit = true := by
  rcases d with _ | _ | _ | _ | _ | _ | _ | _ | _ | d <;> rfl

theorem digitToChar_val (d : Nat) (h : d < 10) : (digitToChar d).toNat - 48 = d := by
  rcases d with _ | _ | _ | _ | _ | _ | _ | _ | _ | d
  · decide
  · decide
  · decide
  · decide
  · decide
  · decide
  · decide
  · decide
  · decide
  · rcases d with _ | d
    · decide
    · omega

theorem natToChars_head (n : Nat) :
    ∃ c cs, natToChars n = c :: cs ∧ c.isDigit = true := by
  induction n using Nat.strong_induction_on with
  | _ n ih =>
    rw [natToChars]
    by_cases h : n < 10
    · exact ⟨digitToChar n, [], by simp [h], digitToChar_isDigit n⟩
    · obtain ⟨c, cs, hcs, hd⟩ := ih (n / 10) (Nat.div_lt_self (by omega) (by omega))
      exact ⟨c, cs ++ [digitToChar (n % 10)], by simp [h, hcs], hd⟩

theorem parseDigits_append (n : Nat) : ∀ acc rest,
    parseDigits acc (natToChars n ++ rest)
      = parseDigits (acc * 10 ^ (natToChars n).length + n) rest := by
  induction n using Nat.strong_induction_on with
  | _ n ih =>
    intro acc rest
    by_cases h : n < 10
    · rw [natToChars, dif_pos h]
      simp only [List.singleton_append, List.length_singleton, parseDigits,
        digitToChar_isDigit n, if_true, digitToChar_val n h]
      congr 1
      ring
    · rw [natToChars, dif_neg h]
      rw [List.append_assoc, ih (n / 10) (Nat.div_lt_self (by omega) (by omega))]
      simp only [List.singleton_append, parseDigits, digitToChar_isDigit (n % 10),
        if_true, digitToChar_val (n % 10) (Nat.mod_lt n (by omega)),
        List.length_append, List.length_singleton]
      congr 1
      calc 10 * (acc * 10 ^ (natToChars (n / 10)).length + n / 10) + n % 10
          = acc * 10 ^ ((natToChars (n / 10)).length + 1)
              + (10 * (n / 10) + n % 10) := by ring
        _ = acc * 10 ^ ((natToChars (n / 10)).length + 1) + n := by
            rw [Nat.div_add_mod]

theorem parseDigits_natToChars (n : Nat) (rest : List Char)
    (h : noLeadDigit rest = true) :
    parseDigits 0 (natToChars n ++ rest) = (n, rest) := by
  rw [parseDigits_append]
  simp only [Nat.zero_mul, Nat.zero_add]
  cases rest with
  | nil => rfl
  | cons c r =>
    simp only [noLeadDigit, Bool.not_eq_true'] at h
    simp [parseDigits, h]

theorem parseStrRest_esc (cs : List Char) (rest : List Char) :
    parseStrRest (escChars cs ++ '"' :: rest) = some (cs, rest) := by
  induction cs with
  | nil =>
    rw [escChars, List.nil_append, parseStrRest.eq_def]
    simp
  | cons c cs ih =>
    by_cases h1 : c = '"'
    · subst h1
      rw [escChars]
      simp only [escChar, if_pos rfl, List.cons_append, List.nil_append]
      rw [parseStrRest.eq_def]
      simp [ih]
    · by_cases h2 : c = '\\'
      · subst h2
        rw [escChars]
        simp only [escChar, List.cons_append, List.nil_append]
        rw [parseStrRest.eq_def]
        simp [ih]
      · rw [escChars]
        simp only [escChar, if_neg h1, if_neg h2, List.cons_append, List.nil_append]
        rw [parseStrRest.eq_def]
        simp [h1, h2, ih]

theorem jsize_pos (j : Json) : 1 ≤ jsize j := by
  cases j <;> simp [jsize]

theorem isDigit_ne_lit (c : Char) (h : c.isDigit = true) :
    c ≠ 'n' ∧ c ≠ 't' ∧ c ≠ 'f' ∧ c ≠ '"' ∧ c ≠ '-' ∧ c ≠ '[' ∧ c ≠ lbrace ∧
      c ≠ ']' := by
  refine ⟨?_, ?_, ?_, ?_, ?_, ?_, ?_, ?_⟩ <;> rintro rfl <;> exact absurd h (by decide)

theorem String_mk_data (s : String) : String.mk s.data = s := rfl

theorem printJson_head (j : Json) :
    ∃ c cs, printJson j = c :: cs ∧ c ≠ ']' := by
  cases j with
  | null => exact ⟨'n', _, rfl, by decide⟩
  | bool b => cases b
              · exact ⟨'f', _, rfl, by decide⟩
              · exact ⟨'t', _, rfl, by decide⟩
  | num n =>
    by_cases hn : n < 0
    · exact ⟨'-', natToChars n.natAbs, by simp [printJson, intChars, hn], by decide⟩
    · obtain ⟨d, ds, hds, hd⟩ := natToChars_head n.natAbs
      exact ⟨d, ds, by simp [printJson, intChars, hn, hds],
        (isDigit_ne_lit d hd).2.2.2.2.2.2.2⟩
  | str s => exact ⟨'"', _, rfl, by decide⟩
  | arr xs => cases xs
              · exact ⟨'[', _, rfl, by decide⟩
              · exact ⟨'[', _, rfl, by decide⟩
  | obj fs => cases fs
              · exact ⟨lbrace, _, rfl, by decide⟩
              · exact ⟨lbrace, _, rfl, by decide⟩

set_option maxRecDepth 8192

theorem parseVal_null (fuel : Nat) (rest : List Char) :
    parseVal (fuel + 1) (printJson Json.null ++ rest) = some (Json.null, rest) := by
  simp [printJson, parseVal]

theorem parseVal_bool (fuel : Nat) (b : Bool) (rest : List Char) :
    parseVal (fuel + 1) (printJson (Json.bool b) ++ rest)
      = some (Json.bool b, rest) := by
  cases b <;> simp [printJson, parseVal]

theorem parseVal_str (fuel : Nat) (s : String) (rest : List Char) :
    parseVal (fuel + 1) (printJson (Json.str s) ++ rest)
      = some (Json.str s, rest) := by
  simp only [printJson, List.cons_append, List.append_assoc, List.nil_append]
  simp [parseVal, parseStrRest_esc]

theorem parseVal_num (fuel : Nat) (n : Int) (rest : List Char)
    (hnl : noLeadDigit rest = true) :
    parseVal (fuel + 1) (printJson (Json.num n) ++ rest)
      = some (Json.num n, rest) := by
  obtain ⟨d, ds, hds, hd⟩ := natToChars_head n.natAbs
  obtain ⟨h1, h2, h3, h4, h5, h6, h7, h8⟩ := isDigit_ne_lit d hd
  have hstep : parseDigits 0 (d :: (ds ++ rest)) = (n.natAbs, rest) := by
    rw [← List.cons_append, ← hds]
    exact parseDigits_natToChars n.natAbs rest hnl
  by_cases hn : n < 0
  · have habs : -((n.natAbs : Int)) = n := by omega
    simp only [printJson, intChars, if_pos hn, hds, List.cons_append]
    simp [parseVal, hd, hstep, habs]
    rw [abs_of_neg hn, neg_neg]
  · have habs : ((n.natAbs : Int)) = n := by omega
    simp only [printJson, intChars, if_neg hn, hds, List.cons_append]
    simp [parseVal, h1, h2, h3, h4, h5, hd, hstep, habs]

theorem noLeadDigit_printElems (xs : List Json) (rest : List Char) :
    noLeadDigit (printElems xs ++ rest) = true := by
  cases xs with
  | nil => simp [printElems, noLeadDigit]
  | cons x xs => simp [printElems, noLeadDigit]

theorem noLeadDigit_printFields (fs : List (String × Json)) (rest : List Char) :
    noLeadDigit (printFields fs ++ rest) = true := by
  cases fs with
  | nil => simp [printFields, noLeadDigit, rbrace]
  | cons f fs => simp [printFields, noLeadDigit]

theorem lbrace_ne_n : lbrace ≠ 'n' := by decide

theorem lbrace_ne_t : lbrace ≠ 't' := by decide

theorem lbrace_ne_f : lbrace ≠ 'f' := by decide

theorem lbrace_ne_quote : lbrace ≠ '"' := by decide

theorem lbrace_ne_minus : lbrace ≠ '-' := by decide

theorem lbrace_not_digit : lbrace.isDigit = false := by decide

theorem lbrace_ne_lbracket : lbrace ≠ '[' := by decide

theorem rbrace_ne_comma : rbrace ≠ ',' := by decide

theorem rbrace_ne_rbracket : rbrace ≠ ']' := by decide

theorem quote_ne_rbrace : ('"' : Char) ≠ rbrace := by decide

theorem parse_print (fuel : Nat) :
    (∀ j rest, jsize j ≤ fuel → noLeadDigit rest = true →
      parseVal fuel (printJson j ++ rest) = some (j, rest)) ∧
    (∀ x xs rest, 1 + jsize x + jsizeList xs ≤ fuel → noLeadDigit rest = true →
      parseElems fuel (printJson x ++ (printElems xs ++ rest))
        = some (x :: xs, rest)) ∧
    (∀ k v fs rest, 1 + jsize v + jsizeFields fs ≤ fuel → noLeadDigit rest = true →
      parseFields fuel (printField (k, v) ++ (printFields fs ++ rest))
        = some ((k, v) :: fs, rest)) := by
  induction fuel with
  | zero =>
    refine ⟨fun j rest hsz _ => absurd hsz ?_, fun x xs rest hsz _ => absurd hsz ?_,
            fun k v fs rest hsz _ => absurd hsz ?_⟩
    · have := jsize_pos j
      omega
    · omega
    · omega
  | succ fuel ih =>
    obtain ⟨ihA, ihB, ihC⟩ := ih
    refine ⟨?_, ?_, ?_⟩
    · intro j rest hsz hnl
      cases j with
      | null => exact parseVal_null fuel rest
      | bool b => exact parseVal_bool fuel b rest
      | num n => exact parseVal_num fuel n rest hnl
      | str s => exact parseVal_str fuel s rest
      | arr xs =>
        cases xs with
        | nil => simp [printJson, parseVal]
        | cons x xs =>
          obtain ⟨c, cs, hx, hc⟩ := printJson_head x
          have hsz' : 1 + jsize x + jsizeList xs ≤ fuel := by
            simp only [jsize, jsizeList] at hsz
            omega
          have hB := ihB x xs rest hsz' hnl
          rw [hx] at hB
          simp only [List.cons_append] at hB
          simp only [printJson, List.cons_append, List.append_assoc, hx]
          simp [parseVal, hc, hB]
      | obj fs =>
        cases fs with
        | nil =>
          simp [printJson, parseVal, lbrace_ne_n, lbrace_ne_t, lbrace_ne_f,
            lbrace_ne_quote, lbrace_ne_minus, lbrace_not_digit, lbrace_ne_lbracket]
        | cons f fs =>
          obtain ⟨k, v⟩ := f
          have hsz' : 1 + jsize v + jsizeFields fs ≤ fuel := by
            simp only [jsize, jsizeFields] at hsz
            omega
          have hC := ihC k v fs rest hsz' hnl
          simp only [printField, List.cons_append, List.append_assoc] at hC
          simp only [printJson, printField, List.cons_append, List.append_assoc]
          simp [parseVal, hC, lbrace_ne_n, lbrace_ne_t, lbrace_ne_f,
            lbrace_ne_quote, lbrace_ne_minus, lbrace_not_digit, lbrace_ne_lbracket,
            quote_ne_rbrace]
    · intro x xs rest hsz hnl
      have hxf : jsize x ≤ fuel := by
        omega
      have hA := ihA x (printElems xs ++ rest) hxf (noLeadDigit_printElems xs rest)
      cases xs with
      | nil =>
        simp only [printElems, List.cons_append, List.nil_append] at hA ⊢
        simp [parseElems, hA]
      | cons y ys =>
        have hsz' : 1 + jsize y + jsizeList ys ≤ fuel := by
          simp only [jsizeList] at hsz
          have := jsize_pos x
          omega
        have hB2 := ihB y ys rest hsz' hnl
        simp only [printElems, List.cons_append, List.append_assoc] at hA ⊢
        simp [parseElems, hA, hB2]
    · intro k v fs rest hsz hnl
      have hvf : jsize v ≤ fuel := by
        omega
      have hA := ihA v (printFields fs ++ rest) hvf (noLeadDigit_printFields fs rest)
      cases fs with
      | nil =>
        simp only [printFields, List.cons_append, List.nil_append] at hA ⊢
        simp only [printField, List.cons_append, List.append_assoc]
        simp [parseFields, parseStrRest_esc, hA, String_mk_data, rbrace_ne_comma]
      | cons f2 fs2 =>
        obtain ⟨k2, v2⟩ := f2
        have hsz' : 1 + jsize v2 + jsizeFields fs2 ≤ fuel := by
          simp only [jsizeFields] at hsz
          have := jsize_pos v
          omega
        have hC2 := ihC k2 v2 fs2 rest hsz' hnl
        simp only [printField, printFields, List.cons_append, List.append_assoc]
          at hA hC2 ⊢
        simp [parseFields, parseStrRest_esc, hA, hC2, String_mk_data,
          rbrace_ne_comma]

theorem jsize_le_printLen (n : Nat) :
    (∀ j, jsize j ≤ n → jsize j ≤ (printJson j).length) ∧
    (∀ xs, jsizeList xs ≤ n → jsizeList xs + 1 ≤ (printElems xs).length) ∧
    (∀ fs, jsizeFields fs ≤ n → jsizeFields fs + 1 ≤ (printFields fs).length) := by
  induction n with
  | zero =>
    refine ⟨?_, ?_, ?_⟩
    · intro j h
      have := jsize_pos j
      omega
    · intro xs h
      cases xs with
      | nil => simp [printElems, jsizeList]
      | cons x xs =>
        simp only [jsizeList] at h
        have := jsize_pos x
        omega
    · intro fs h
      cases fs with
      | nil => simp [printFields, jsizeFields]
      | cons f fs =>
        simp only [jsizeFields] at h
        have := jsize_pos f.2
        omega
  | succ n ih =>
    obtain ⟨ihA, ihB, ihC⟩ := ih
    refine ⟨?_, ?_, ?_⟩
    · intro j hj
      cases j with
      | null => simp [jsize, printJson]
      | bool b => cases b <;> simp [jsize, printJson]
      | num m =>
        obtain ⟨d, ds, hds, _⟩ := natToChars_head m.natAbs
        by_cases hm : m < 0 <;> simp [jsize, printJson, intChars, hm, hds]
      | str s => simp [jsize, printJson]
      | arr xs =>
        cases xs with
        | nil => simp [jsize, jsizeList, printJson]
        | cons x xs =>
          have hx : jsize x ≤ n := by
            simp only [jsize, jsizeList] at hj
            omega
          have hxs : jsizeList xs ≤ n := by
            simp only [jsize, jsizeList] at hj
            omega
          have h1 := ihA x hx
          have h2 := ihB xs hxs
          simp only [jsize, jsizeList, printJson, List.length_cons,
            List.length_append] at h1 h2 ⊢
          omega
      | obj fs =>
        cases fs with
        | nil => simp [jsize, jsizeFields, printJson]
        | cons f fs =>
          obtain ⟨k, v⟩ := f
          have hv : jsize v ≤ n := by
            simp only [jsize, jsizeFields] at hj
            omega
          have hfs : jsizeFields fs ≤ n := by
            simp only [jsize, jsizeFields] at hj
            omega
          have h1 := ihA v hv
          have h2 := ihC fs hfs
          simp only [jsize, jsizeFields, printJson, printField, List.length_cons,
            List.length_append] at h1 h2 ⊢
          omega
    · intro xs hxs
      cases xs with
      | nil => simp [printElems, jsizeList]
      | cons x xs =>
        have hx : jsize x ≤ n := by
          simp only [jsizeList] at hxs
          omega
        have hxs' : jsizeList xs ≤ n := by
          simp only [jsizeList] at hxs
          omega
        have h1 := ihA x hx
        have h2 := ihB xs hxs'
        simp only [jsizeList, printElems, List.length_cons, List.length_append]
          at h1 h2 ⊢
        omega
    · intro fs hfs
      cases fs with
      | nil => simp [printFields, jsizeFields]
      | cons f fs =>
        obtain ⟨k, v⟩ := f
        have hv : jsize v ≤ n := by
          simp only [jsizeFields] at hfs
          omega
        have hfs' : jsizeFields fs ≤ n := by
          simp only [jsizeFields] at hfs
          omega
        have h1 := ihA v hv
        have h2 := ihC fs hfs'
        simp only [jsizeFields, printFields, printField, List.length_cons,
          List.length_append] at h1 h2 ⊢
        omega

/-- The JSON model round-trips: decoding a printed value gives it back.
This is the model-level counterpart of `serde_json` decode-after-encode. -/
theorem json_roundtrip (j : Json) : parseJson (jsonToString j) = some j := by
  have hsize : jsize j ≤ (printJson j).length :=
    (jsize_le_printLen (jsize j)).1 j le_rfl
  have hA := (parse_print ((printJson j).length + 1)).1 j [] (by omega) rfl
  rw [List.append_nil] at hA
  unfold parseJson jsonToString
  simp [hA]

/-! ## Claim theorems -/

/-- C3: exactly the six boolean parameters `ascending`, `o:dkim`,
`o:testmode`, `o:tracking-open`, `o:require-tls`, `o:skip-verification`
render as the literal strings "yes"/"no" (never "true"/"false"), while the
remaining boolean-valued parameters `pretty` and `o:tracking` render the
language-native boolean stringification "true"/"false". -/
theorem c3_yes_no_rendering (b : Bool) :
    (GetEventsParam.Ascending b).try_as_tuple
      = .ok ("ascending", if b then "yes" else "no") ∧
    (SendMessageParam.ODkim b).try_as_tuple
      = .ok ("o:dkim", if b then "yes" else "no") ∧
    (SendMessageParam.OTestMode b).try_as_tuple
      = .ok ("o:testmode", if b then "yes" else "no") ∧
    (SendMessageParam.OTrackingOpens b).try_as_tuple
      = .ok ("o:tracking-open", if b then "yes" else "no") ∧
    (SendMessageParam.ORequireTls b).try_as_tuple
      = .ok ("o:require-tls", if b then "yes" else "no") ∧
    (SendMessageParam.OSkipVerification b).try_as_tuple
      = .ok ("o:skip-verification", if b then "yes" else "no") ∧
    (GetEventsParam.Pretty b).try_as_tuple = .ok ("pretty", boolToString b) ∧
    (SendMessageParam.OTracking b).try_as_tuple
      = .ok ("o:tracking", boolToString b) ∧
    (if b then "yes" else "no") ≠ "true" ∧
    (if b then "yes" else "no") ≠ "false" ∧
    boolToString b = (if b then "true" else "false") := by
  cases b <;>
    exact ⟨rfl, rfl, rfl, rfl, rfl, rfl, rfl, rfl, by decide, by decide, rfl⟩

/-- C5: every parameter variant of every endpoint except
`SendMessageParam::RecipientVariables` renders infallibly (`try_as_tuple`
is `Ok`, so the unwrapping `as_tuple` cannot panic) and yields a non-empty
key. -/
theorem c5_infallible_rendering :
    (∀ p : GetBouncesParam, p.try_as_tuple = .ok p.as_tuple ∧ p.as_tuple.1 ≠ "") ∧
    (∀ p : GetComplaintsParam, p.try_as_tuple = .ok p.as_tuple ∧ p.as_tuple.1 ≠ "") ∧
    (∀ p : GetUnsubscribesParam, p.try_as_tuple = .ok p.as_tuple ∧ p.as_tuple.1 ≠ "") ∧
    (∀ p : GetWhitelistsParam, p.try_as_tuple = .ok p.as_tuple ∧ p.as_tuple.1 ≠ "") ∧
    (∀ p : GetStatsParam, p.try_as_tuple = .ok p.as_tuple ∧ p.as_tuple.1 ≠ "") ∧
    (∀ p : GetEventsParam, p.try_as_tuple = .ok p.as_tuple ∧ p.as_tuple.1 ≠ "") ∧
    (∀ p : SendMessageParam, p.isRecipientVariables = false →
      p.try_as_tuple = .ok p.as_tuple ∧ p.as_tuple.1 ≠ "") := by
  have hpre : ∀ (pre s : String), pre.length ≠ 0 → pre ++ s ≠ "" := by
    intro pre s hl h
    have h2 := congrArg String.length h
    rw [String.length_append] at h2
    have h0 : ("" : String).length = 0 := rfl
    rw [h0] at h2
    omega
  refine ⟨?_, ?_, ?_, ?_, ?_, ?_, ?_⟩
  · intro p
    cases p
    exact ⟨rfl, by simp [GetBouncesParam.as_tuple, GetBouncesParam.try_as_tuple]⟩
  · intro p
    cases p
    exact ⟨rfl, by simp [GetComplaintsParam.as_tuple, GetComplaintsParam.try_as_tuple]⟩
  · intro p
    cases p
    exact ⟨rfl,
      by simp [GetUnsubscribesParam.as_tuple, GetUnsubscribesParam.try_as_tuple]⟩
  · intro p
    cases p
    exact ⟨rfl, by simp [GetWhitelistsParam.as_tuple, GetWhitelistsParam.try_as_tuple]⟩
  · intro p
    cases p <;>
      exact ⟨rfl, by simp [GetStatsParam.as_tuple, GetStatsParam.try_as_tuple]⟩
  · intro p
    cases p <;>
      exact ⟨rfl, by simp [GetEventsParam.as_tuple, GetEventsParam.try_as_tuple]⟩
  · intro p hp
    cases p
    case CustomHeader key value => exact ⟨rfl, hpre "h:" _ (by decide)⟩
    case CustomVariable key value => exact ⟨rfl, hpre "v:" _ (by decide)⟩
    case RecipientVariables v =>
      exact absurd hp (by simp [SendMessageParam.isRecipientVariables])
    all_goals
      exact ⟨rfl, by simp [SendMessageParam.as_tuple, SendMessageParam.try_as_tuple]⟩

theorem c5_witness :
    (SendMessageParam.From "sender@x.com").try_as_tuple
      = .ok (SendMessageParam.From "sender@x.com").as_tuple ∧
    (SendMessageParam.From "sender@x.com").as_tuple.1 ≠ "" :=
  c5_infallible_rendering.2.2.2.2.2.2 (SendMessageParam.From "sender@x.com") rfl

/-- C8: the default parameter lists are empty for bounces, complaints,
unsubscribes, whitelists and send-message; the stats default requests the
three event categories; the events default disables pretty printing; the
default bounces call issues `GET {base}/{domain}/bounces` with basic auth
and no query parameters, and adding `Limit(1)` adds exactly `limit=1`. -/
theorem c8_defaults_and_bounces_request (c : Client)
    (net : Request → SdkResponse) :
    GetBouncesParamList.default.values = [] ∧
    GetComplaintsParamList.default.values = [] ∧
    GetUnsubscribesParamList.default.values = [] ∧
    GetWhitelistsParamList.default.values = [] ∧
    SendMessageParamList.default.values = [] ∧
    GetStatsParamList.default.values
      = [GetStatsParam.Event "accepted", GetStatsParam.Event "delivered",
         GetStatsParam.Event "failed"] ∧
    GetEventsParamList.default.values = [GetEventsParam.Pretty false] ∧
    c.get_bounces_request GetBouncesParamList.default
      = { method := .GET, url := MAILGUN_API_BASE ++ "/" ++ c.domain ++ "/bounces",
          user := "api", password := c.api_key, query := [] } ∧
    c.get_bounces_request (GetBouncesParamList.default.add (GetBouncesParam.Limit 1))
      = { method := .GET, url := MAILGUN_API_BASE ++ "/" ++ c.domain ++ "/bounces",
          user := "api", password := c.api_key, query := [("limit", "1")] } ∧
    c.get_bounces GetBouncesParamList.default net
      = classifyTyped decodeGetBouncesResponse
          (net (c.get_bounces_request GetBouncesParamList.default)) := by
  exact ⟨rfl, rfl, rfl, rfl, rfl, rfl, rfl, rfl, rfl, rfl⟩

/-- C9: `add` appends the parameter at the end of the list (previous
elements unchanged, duplicates permitted) for every endpoint's parameter
list; the client attaches the rendered query parameters in list order, and
the `Text`/`To`/`From`/`OTestMode(true)` scenario issues
`POST {base}/{domain}/messages` with `text`, `to`, `from`,
`o:testmode=yes` in exactly that insertion order. -/
theorem c9_add_appends_and_order (t u f : String) (c : Client)
    (net : Request → SdkResponse) :
    (∀ (l : GetBouncesParamList) p, (l.add p).values = l.values ++ [p]) ∧
    (∀ (l : GetComplaintsParamList) p, (l.add p).values = l.values ++ [p]) ∧
    (∀ (l : GetEventsParamList) p, (l.add p).values = l.values ++ [p]) ∧
    (∀ (l : GetStatsParamList) p, (l.add p).values = l.values ++ [p]) ∧
    (∀ (l : GetUnsubscribesParamList) p, (l.add p).values = l.values ++ [p]) ∧
    (∀ (l : GetWhitelistsParamList) p, (l.add p).values = l.values ++ [p]) ∧
    (∀ (l : SendMessageParamList) p, (l.add p).values = l.values ++ [p]) ∧
    (∀ (ps : GetBouncesParamList),
      (c.get_bounces_request ps).query = ps.values.map GetBouncesParam.as_tuple) ∧
    ((((SendMessageParamList.default.add
          (SendMessageParam.Text t)).add
            (SendMessageParam.To u)).add
              (SendMessageParam.From f)).add
                (SendMessageParam.OTestMode true)).values
      = [SendMessageParam.Text t, SendMessageParam.To u, SendMessageParam.From f,
         SendMessageParam.OTestMode true] ∧
    renderSendParams
        [SendMessageParam.Text t, SendMessageParam.To u, SendMessageParam.From f,
         SendMessageParam.OTestMode true]
      = .ok [("text", t), ("to", u), ("from", f), ("o:testmode", "yes")] ∧
    Client.send_message c
        ((((SendMessageParamList.default.add
            (SendMessageParam.Text t)).add
              (SendMessageParam.To u)).add
                (SendMessageParam.From f)).add
                  (SendMessageParam.OTestMode true)) net
      = classifyTyped decodeSendMessageResponse
          (net { method := .POST,
                 url := MAILGUN_API_BASE ++ "/" ++ c.domain ++ "/messages",
                 user := "api", password := c.api_key,
                 query := [("text", t), ("to", u), ("from", f),
                           ("o:testmode", "yes")] }) := by
  exact ⟨fun l p => rfl, fun l p => rfl, fun l p => rfl, fun l p => rfl,
         fun l p => rfl, fun l p => rfl, fun l p => rfl, fun ps => rfl,
         rfl, rfl, rfl⟩

/-- C4: rendering `RecipientVariables(v)` fails (with
`ParamError::InvalidJson` naming "recipient-variables") exactly when `v`
cannot be JSON-encoded; otherwise it yields
`("recipient-variables", jsonString)` where `jsonString` decodes back
through JSON to the serialized value (round-trip). -/
theorem c4_recipient_variables_roundtrip (v : SerValue) :
    ((∃ cause, (SendMessageParam.RecipientVariables v).try_as_tuple
        = .error (ParamError.invalidJson "recipient-variables" cause))
      ↔ (∃ msg, v = .error msg)) ∧
    (∀ j, v = .ok j →
      (SendMessageParam.RecipientVariables v).try_as_tuple
          = .ok ("recipient-variables", jsonToString j) ∧
      parseJson (jsonToString j) = some j) := by
  constructor
  · constructor
    · rintro ⟨cause, hc⟩
      cases v with
      | ok j => simp [SendMessageParam.try_as_tuple] at hc
      | error msg => exact ⟨msg, rfl⟩
    · rintro ⟨msg, rfl⟩
      exact ⟨msg, rfl⟩
  · rintro j rfl
    exact ⟨rfl, json_roundtrip j⟩

theorem c4_witness :
    (SendMessageParam.RecipientVariables
        (Except.ok (Json.obj [("a@b.com", Json.obj [("name", Json.str "Alice")])]))).try_as_tuple
      = .ok ("recipient-variables",
          jsonToString (Json.obj [("a@b.com", Json.obj [("name", Json.str "Alice")])])) ∧
    parseJson (jsonToString (Json.obj [("a@b.com", Json.obj [("name", Json.str "Alice")])]))
      = some (Json.obj [("a@b.com", Json.obj [("name", Json.str "Alice")])]) :=
  (c4_recipient_variables_roundtrip
      (Except.ok (Json.obj [("a@b.com", Json.obj [("name", Json.str "Alice")])]))).2
    (Json.obj [("a@b.com", Json.obj [("name", Json.str "Alice")])]) rfl

theorem renderSendParams_error_cause (ps : List SendMessageParam) (e : ParamError)
    (h : renderSendParams ps = .error e) :
    ∃ cause, e = ParamError.invalidJson "recipient-variables" cause := by
  induction ps with
  | nil => simp [renderSendParams] at h
  | cons p ps ih =>
    have hcase : ∀ e2, p.try_as_tuple = Except.error e2 →
        ∃ cause, e2 = ParamError.invalidJson "recipient-variables" cause := by
      intro e2 h2
      cases p <;> simp [SendMessageParam.try_as_tuple] at h2
      case RecipientVariables v =>
        cases v with
        | error msg =>
          simp [SendMessageParam.try_as_tuple] at h2
          exact ⟨msg, h2.symm⟩
        | ok j => simp [SendMessageParam.try_as_tuple] at h2
    cases hp : p.try_as_tuple with
    | error e2 =>
      rw [renderSendParams, hp] at h
      obtain ⟨cause, hc⟩ := hcase e2 hp
      cases h
      exact ⟨cause, hc⟩
    | ok kv =>
      rw [renderSendParams, hp] at h
      cases hr : renderSendParams ps with
      | error e3 =>
        rw [hr] at h
        cases h
        exact ih hr
      | ok kvs =>
        rw [hr] at h
        cases h

/-- C6: if any parameter in the list passed to `send_message` fails
rendering, the method returns `ClientError::ParamError` carrying the
parameter name ("recipient-variables") and the underlying encode failure,
and the result does not depend on the transport (no HTTP request is
issued: the failure surfaces before the `net` collaborator is consulted). -/
theorem c6_param_error_before_network (c : Client) (ps : SendMessageParamList)
    (e : ParamError) (net net2 : Request → SdkResponse)
    (h : renderSendParams ps.values = .error e) :
    Client.send_message c ps net = .error (ClientError.paramError e) ∧
    Client.send_message c ps net = Client.send_message c ps net2 ∧
    ∃ cause, e = ParamError.invalidJson "recipient-variables" cause := by
  refine ⟨?_, ?_, renderSendParams_error_cause ps.values e h⟩
  · rw [Client.send_message, h]
  · rw [Client.send_message, h, Client.send_message, h]

theorem c6_witness :
    Client.send_message ⟨"api-key", "dom"⟩
        ⟨[SendMessageParam.RecipientVariables (Except.error "boom")]⟩
        (fun _ => ⟨200, "\x7b\"id\":\"1\",\"message\":\"ok\"\x7d"⟩)
      = .error (ClientError.paramError
          (ParamError.invalidJson "recipient-variables" "boom")) ∧
    Client.send_message ⟨"api-key", "dom"⟩
        ⟨[SendMessageParam.RecipientVariables (Except.error "boom")]⟩
        (fun _ => ⟨200, "\x7b\"id\":\"1\",\"message\":\"ok\"\x7d"⟩)
      = Client.send_message ⟨"api-key", "dom"⟩
          ⟨[SendMessageParam.RecipientVariables (Except.error "boom")]⟩
          (fun _ => ⟨500, "down"⟩) ∧
    ∃ cause, ParamError.invalidJson "recipient-variables" "boom"
      = ParamError.invalidJson "recipient-variables" cause :=
  c6_param_error_before_network ⟨"api-key", "dom"⟩
    ⟨[SendMessageParam.RecipientVariables (Except.error "boom")]⟩
    (ParamError.invalidJson "recipient-variables" "boom")
    (fun _ => ⟨200, "\x7b\"id\":\"1\",\"message\":\"ok\"\x7d"⟩)
    (fun _ => ⟨500, "down"⟩) rfl

/-- C7 counterexample: the `Error` alias is exact, not case-insensitive —
an object whose only key is `ERROR` does not decode as the error envelope
at all, refuting "the alias \"Error\" and other casings also match". -/
theorem c7_counterexample :
    decodeErrorResponse (Json.obj [("ERROR", Json.str "nope")]) = none ∧
    from_str_error "\x7b\"ERROR\":\"nope\"\x7d" = none := by
  exact ⟨rfl, rfl⟩

/-- C7 (amended): `ErrorResponse` decodes exactly from a JSON object with
a string-valued `error` field — where only the exact spellings `error` and
`Error` are accepted — or, failing that, a string-valued `message` field;
the decoded variant carries that string, and non-objects never decode. -/
theorem c7_error_envelope_shapes :
    (∀ (fields : List (String × Json)) (e : ErrorResponse),
      decodeErrorResponse (Json.obj fields) = some e ↔
        ((∃ s, lookupStr fields ["error", "Error"] = some s
            ∧ e = ErrorResponse.withError s) ∨
         (lookupStr fields ["error", "Error"] = none ∧
          ∃ s, lookupStr fields ["message"] = some s
            ∧ e = ErrorResponse.withMessage s))) ∧
    (∀ s, decodeErrorResponse (Json.obj [("error", Json.str s)])
      = some (ErrorResponse.withError s)) ∧
    (∀ s, decodeErrorResponse (Json.obj [("Error", Json.str s)])
      = some (ErrorResponse.withError s)) ∧
    (∀ s, decodeErrorResponse (Json.obj [("message", Json.str s)])
      = some (ErrorResponse.withMessage s)) ∧
    (∀ j, (∀ fields, j ≠ Json.obj fields) → decodeErrorResponse j = none) := by
  refine ⟨?_, fun s => rfl, fun s => rfl, fun s => rfl, ?_⟩
  · intro fields e
    cases h1 : lookupStr fields ["error", "Error"] with
    | some s => simp [decodeErrorResponse, h1, eq_comm]
    | none =>
      cases h2 : lookupStr fields ["message"] with
      | some m => simp [decodeErrorResponse, h1, h2, eq_comm]
      | none => simp [decodeErrorResponse, h1, h2]
  · intro j hj
    cases j with
    | obj fields => exact absurd rfl (hj fields)
    | null => rfl
    | bool b => rfl
    | num n => rfl
    | str s => rfl
    | arr xs => rfl

theorem c7_witness :
    decodeErrorResponse (Json.obj [("id", Json.num 1), ("message", Json.str "m")])
      = some (ErrorResponse.withMessage "m") :=
  (c7_error_envelope_shapes.1 [("id", Json.num 1), ("message", Json.str "m")]
      (ErrorResponse.withMessage "m")).mpr
    (Or.inr ⟨rfl, "m", rfl, rfl⟩)

theorem uniformClassification_all {α : Type} (dec : Json → Option α) :
    uniformClassification dec := by
  intro status body
  refine ⟨?_, ?_, ?_⟩
  · intro e hs he
    simp [classifyTyped, hs, he]
  · intro hs he
    simp [classifyTyped, hs, he]
  · intro hs
    subst hs
    cases hd : (parseJson body).bind dec with
    | some v =>
      exact Or.inl ⟨v, rfl, by simp [classifyTyped, decodeDeclared, hd]⟩
    | none => exact Or.inr ⟨rfl, by simp [classifyTyped, decodeDeclared, hd]⟩

/-- C2: every typed endpoint method classifies its response uniformly:
non-200 with a decodable error envelope gives `ApiError` carrying the
decoded message; non-200 with a body matching neither error shape gives
`HttpError` with the literal status and verbatim body; 200 decodes the
declared shape, yielding the value or `ResponseParseError`, never a
silent default.  The final two conjuncts instantiate the spec's examples:
`{"message":"no such domain"}` on 404, and a 200 body missing a required
field. -/
theorem c2_typed_endpoint_classification :
    uniformClassification decodeGetBouncesResponse ∧
    uniformClassification decodeGetComplaintsResponse ∧
    uniformClassification decodeGetEventsResponse ∧
    uniformClassification decodeGetStatsResponse ∧
    uniformClassification decodeGetUnsubscribesResponse ∧
    uniformClassification decodeGetWhitelistsResponse ∧
    uniformClassification decodeSendMessageResponse ∧
    (∀ c ps net, Client.get_bounces c ps net
      = classifyTyped decodeGetBouncesResponse (net (c.get_bounces_request ps))) ∧
    (∀ c ps net, Client.get_complaints c ps net
      = classifyTyped decodeGetComplaintsResponse
          (net (c.get_complaints_request ps))) ∧
    (∀ c ps net, Client.get_events c ps net
      = classifyTyped decodeGetEventsResponse (net (c.get_events_request ps))) ∧
    (∀ c ps net, Client.get_stats c ps net
      = classifyTyped decodeGetStatsResponse (net (c.get_stats_request ps))) ∧
    (∀ c ps net, Client.get_unsubscribes c ps net
      = classifyTyped decodeGetUnsubscribesResponse
          (net (c.get_unsubscribes_request ps))) ∧
    (∀ c ps net, Client.get_whitelists c ps net
      = classifyTyped decodeGetWhitelistsResponse
          (net (c.get_whitelists_request ps))) ∧
    (∀ c ps kvs net, renderSendParams ps.values = .ok kvs →
      Client.send_message c ps net
        = classifyTyped decodeSendMessageResponse
            (net { method := .POST,
                   url := MAILGUN_API_BASE ++ "/" ++ c.domain ++ "/messages",
                   user := "api", password := c.api_key, query := kvs })) ∧
    classifyTyped decodeGetBouncesResponse
        ⟨404, "\x7b\"message\":\"no such domain\"\x7d"⟩
      = .error (.apiError (ErrorResponse.withMessage "no such domain")) ∧
    classifyTyped decodeSendMessageResponse ⟨200, "\x7b\"id\":\"x\"\x7d"⟩
      = .error (.parseResponse "\x7b\"id\":\"x\"\x7d") := by
  refine ⟨uniformClassification_all _, uniformClassification_all _,
    uniformClassification_all _, uniformClassification_all _,
    uniformClassification_all _, uniformClassification_all _,
    uniformClassification_all _,
    fun c ps net => rfl, fun c ps net => rfl, fun c ps net => rfl,
    fun c ps net => rfl, fun c ps net => rfl, fun c ps net => rfl,
    ?_, rfl, rfl⟩
  intro c ps kvs net h
  rw [Client.send_message, h]

theorem c2_witness :
    classifyTyped decodeGetBouncesResponse ⟨404, "oops"⟩
      = .error (.httpError 404 "oops") :=
  (c2_typed_endpoint_classification.1 404 "oops").2.1 (by decide) rfl

/-- C10 counterexample: on a non-200 response whose object body carries
both a string `error` field and a string `message` field, the untagged
decode prefers the `error` variant, so the `ApiError` carries "boom", not
the message "m" — refuting "returns ApiError carrying that message" as a
universal statement. -/
theorem c10_counterexample :
    classifyTyped decodeSendMessageResponse
        ⟨400, "\x7b\"error\":\"boom\",\"message\":\"m\"\x7d"⟩
      = .error (.apiError (ErrorResponse.withError "boom")) ∧
    ErrorResponse.withError "boom" ≠ ErrorResponse.withMessage "m" := by
  exact ⟨rfl, by decide⟩

/-- C10 (amended): on a non-200 status, any JSON object body containing a
string-valued `message` field decodes as the error envelope regardless of
extra fields (including a success-shaped `{id, message}` body), so both
the typed classification and the pagination classification return
`ApiError` — never `HttpError` and never a success value; the carried
envelope is `WithMessage` of that message unless an `error`/`Error`
string field is present, which the untagged decode prefers. -/
theorem c10_message_body_yields_apiError {α : Type} (dec : Json → Option α)
    (status : Nat) (body : String) (fields : List (String × Json)) (m : String)
    (hs : status ≠ 200) (hp : parseJson body = some (Json.obj fields))
    (hm : lookupStr fields ["message"] = some m) :
    ∃ e, classifyTyped dec ⟨status, body⟩ = .error (.apiError e) ∧
      callClassify dec ⟨status, body⟩ = .error (.apiError e) ∧
      (lookupStr fields ["error", "Error"] = none
        → e = ErrorResponse.withMessage m) := by
  have hdec : ∃ e, decodeErrorResponse (Json.obj fields) = some e ∧
      (lookupStr fields ["error", "Error"] = none
        → e = ErrorResponse.withMessage m) := by
    cases h1 : lookupStr fields ["error", "Error"] with
    | some s =>
      refine ⟨ErrorResponse.withError s, ?_, ?_⟩
      · simp [decodeErrorResponse, h1]
      · simp [h1]
    | none =>
      refine ⟨ErrorResponse.withMessage m, ?_, fun _ => rfl⟩
      simp [decodeErrorResponse, h1, hm]
  obtain ⟨e, he, himp⟩ := hdec
  refine ⟨e, ?_, ?_, himp⟩
  · simp [classifyTyped, hs, from_str_error, hp, he]
  · simp [callClassify, hs, from_str_error, hp, he]

theorem c10_witness :
    ∃ e, classifyTyped decodeSendMessageResponse
          ⟨402, "\x7b\"id\":\"1\",\"message\":\"m\"\x7d"⟩
        = .error (.apiError e) ∧
      callClassify decodeSendMessageResponse
          ⟨402, "\x7b\"id\":\"1\",\"message\":\"m\"\x7d"⟩
        = .error (.apiError e) ∧
      (lookupStr [("id", Json.str "1"), ("message", Json.str "m")]
          ["error", "Error"] = none
        → e = ErrorResponse.withMessage "m") :=
  c10_message_body_yields_apiError decodeSendMessageResponse 402
    "\x7b\"id\":\"1\",\"message\":\"m\"\x7d"
    [("id", Json.str "1"), ("message", Json.str "m")] "m" (by decide) rfl rfl

/-- C1: on a non-200 response whose body matches neither error shape, the
generic pagination classifier (`Client::call`) does not return the
`HttpError` that every typed endpoint method returns — it falls through
to the declared-shape decode and yields `ResponseParseError` instead
(src/src/client.rs lines 45-51 have no `HttpError` branch).  The spec
itself flags this divergence as a defect in the source (sections 4.3 and
9), so the code, not the claim, is at fault. -/
theorem c1_call_vs_typed_divergence :
    callClassify decodeGetBouncesResponse ⟨404, "oops"⟩
      = .error (.parseResponse "oops") ∧
    classifyTyped decodeGetBouncesResponse ⟨404, "oops"⟩
      = .error (.httpError 404 "oops") ∧
    ClientError.parseResponse "oops" ≠ ClientError.httpError 404 "oops" := by
  exact ⟨rfl, rfl, by decide⟩
